import Mathlib

/-!
Verification of the cgra-adders verification harness core.

The repository's core consists of:
* a pure reference model (inline in `src/sim/tests/test_add_basic.py`):
  `total = a + b + c_in; expected_sum = total & ((1 << N) - 1);
   expected_c_out = total >> N`;
* `AdderSequence` (`src/sim/sequences/adder_sequence.py`): random stimulus
  generation via `random.randint`;
* `AdderCoverage` (`src/sim/coverage/adder_coverage.py`): a set of sampled
  tuples with JSON save/load, merge and report;
* assertion helpers (`src/sim/assertions/adder_asserts.py`): `assert`-based
  comparison of observed vs expected sum and carry-out, applied in sequence
  by the test.

Python's dynamic features are embedded shallowly: the random source becomes
an explicit stream of naturals, exceptions become `Except`, JSON content
becomes an inductive value type, and the Python `set` becomes a `Finset`.
-/

/-- Errors raised by the embedded Python fragments: file errors from `open`
or `json.load`, `ValueError` from negative shifts or empty `randint` ranges,
and `TypeError` from iterating or hashing unsuitable values. -/
inductive PyError where
  | ioError : PyError
  | valueError : PyError
  | typeError : PyError
deriving DecidableEq, Repr

namespace ReferenceModel

/-- The inline reference model of `test_add_basic.py`:
`mask = (1 << N) - 1; total = a + b + c_in;
 expected_sum = total & mask; expected_c_out = total >> N`. -/
def expect (N a b c_in : ℕ) : ℕ × ℕ :=
  let mask := (1 <<< N) - 1
  let total := a + b + c_in
  (total &&& mask, total >>> N)

end ReferenceModel

/-- The reference model as the spec words it: truncated sum and the
division-derived carry, for comparison with the source's bitwise form. -/
def specExpect (N a b c_in : ℕ) : ℕ × ℕ :=
  ((a + b + c_in) % 2 ^ N, (a + b + c_in) / 2 ^ N)

/-- The state of Python's `random` module, embedded as an infinite stream of
naturals with a cursor; each `randint` call consumes one stream element. -/
structure RandState where
  stream : ℕ → ℕ
  pos : ℕ

/-- `random.randint(lo, hi)`: returns a value in `[lo, hi]` drawn from the
stream; raises `ValueError` when the range is empty (`hi < lo`). -/
def randint (lo hi : ℤ) (s : RandState) : Except PyError (ℤ × RandState) :=
  if hi < lo then .error .valueError
  else .ok (lo + (s.stream s.pos : ℤ) % (hi - lo + 1), ⟨s.stream, s.pos + 1⟩)

/-- Python's `x << n` on arbitrary-precision ints: raises `ValueError` on a
negative shift count. -/
def pyShiftLeft (x n : ℤ) : Except PyError ℤ :=
  if n < 0 then .error .valueError else .ok (x * 2 ^ n.toNat)

namespace AdderSequence

/-- The `for _ in range(num_vectors)` loop of `generate_vectors`: three
`randint` draws per iteration — `a`, `b` in `[0, max_val]`, `c_in` in
`[0, 1]` — appended in order. -/
def genLoop (max_val : ℤ) :
    ℕ → RandState → Except PyError (List (ℤ × ℤ × ℤ) × RandState)
  | 0, s => .ok ([], s)
  | n + 1, s => do
    let (a, s1) ← randint 0 max_val s
    let (b, s2) ← randint 0 max_val s1
    let (c_in, s3) ← randint 0 1 s2
    let (rest, s4) ← genLoop max_val n s3
    .ok ((a, b, c_in) :: rest, s4)

/-- `AdderSequence(width).generate_vectors(num_vectors)` from
`adder_sequence.py`: `max_val = (1 << width) - 1`, then `num_vectors`
random triples. The constructor performs no validation of `width`, so the
stored width is passed through directly. -/
def generate_vectors (width : ℤ) (num_vectors : ℕ) (s : RandState) :
    Except PyError (List (ℤ × ℤ × ℤ) × RandState) := do
  let shifted ← pyShiftLeft 1 width
  genLoop (shifted - 1) num_vectors s

/-- `generate_vectors` called with its Python default `num_vectors = 1`. -/
def generate_vectors_default (width : ℤ) (s : RandState) :
    Except PyError (List (ℤ × ℤ × ℤ) × RandState) :=
  generate_vectors width 1 s

end AdderSequence

/-- Scalar JSON values that are hashable in Python and can therefore appear
as components of a tuple stored in the coverage set. -/
inductive JScalar where
  | num (n : ℤ)
  | str (s : String)
deriving DecidableEq, Repr

/-- JSON values as read or written by `json.load` / `json.dump` in the
coverage persistence format: numbers, strings and (nested) arrays. -/
inductive JVal where
  | num (n : ℤ)
  | str (s : String)
  | arr (elems : List JVal)

/-- Injection of a hashable scalar back into a JSON value, as `json.dump`
serializes the components of a stored tuple. -/
def JScalar.toJVal : JScalar → JVal
  | .num n => .num n
  | .str s => .str s

/-- Python iteration over a JSON value (`for x in ...` or `tuple(x)`):
arrays iterate over their elements, strings over their one-character
substrings, and numbers are not iterable (`TypeError`). -/
def pyIter : JVal → Except PyError (List JVal)
  | .num _ => .error .typeError
  | .str s => .ok (s.data.map fun c => .str (String.mk [c]))
  | .arr xs => .ok xs

/-- Hashability of one tuple component, as required by membership in a
Python `set`: numbers and strings are hashable, a nested list is not and
raises `TypeError` when the tuple is added to the set. -/
def jvalComponent : JVal → Except PyError JScalar
  | .num n => .ok (.num n)
  | .str s => .ok (.str s)
  | .arr _ => .error .typeError

/-- Hashable components of a list of JSON values, in order; the first
unhashable component raises. -/
def scalarsOf : List JVal → Except PyError (List JScalar)
  | [] => .ok []
  | y :: ys => do
    let c ← jvalComponent y
    let cs ← scalarsOf ys
    .ok (c :: cs)

/-- `tuple(x)` for one element `x` of the loaded JSON value, combined with
the hashability check done when the tuple enters the `set`. -/
def hashableTuple (x : JVal) : Except PyError (List JScalar) := do
  let comps ← pyIter x
  scalarsOf comps

/-- The generator `tuple(x) for x in ...` over the loaded elements; errors
propagate before any assignment happens. -/
def tuplesOf : List JVal → Except PyError (List (List JScalar))
  | [] => .ok []
  | x :: xs => do
    let t ← hashableTuple x
    let ts ← tuplesOf xs
    .ok (t :: ts)

namespace AdderCoverage

/-- The `covered` attribute of `AdderCoverage`: a Python `set` of tuples,
embedded as a `Finset` of lists of hashable scalars. -/
abbrev CoverageSet := Finset (List JScalar)

/-- `sample(a, b, cin)`: `self.covered.add((a, b, cin))` — inserts the key
with no bounds check on any argument. -/
def sample (cov : CoverageSet) (a b cin : ℤ) : CoverageSet :=
  insert [JScalar.num a, JScalar.num b, JScalar.num cin] cov

/-- `save(filename)`: `json.dump(list(self.covered), f)` — the set is
written as a JSON array of arrays, in whatever order `list` enumerates the
set; that enumeration is supplied explicitly as `l`. -/
def save (l : List (List JScalar)) : JVal :=
  .arr (l.map fun t => .arr (t.map JScalar.toJVal))

/-- The parse `set(tuple(x) for x in json.load(f))` performed by `load`;
`file = none` models a missing or unparseable file. -/
def loadParse (file : Option JVal) : Except PyError CoverageSet :=
  match file with
  | none => .error .ioError
  | some content => do
    let xs ← pyIter content
    let ts ← tuplesOf xs
    .ok ts.toFinset

/-- The full state transition of `load(filename)`: `self.covered` is
assigned only after the right-hand side has been fully evaluated, so on any
raised error the previous set is kept and the error propagates. -/
def load (cov : CoverageSet) (file : Option JVal) :
    CoverageSet × Option PyError :=
  match loadParse file with
  | .ok newSet => (newSet, none)
  | .error e => (cov, some e)

/-- `merge(other_coverage)`: `self.covered.update(other_coverage.covered)` —
the receiver becomes the union and the argument is untouched; both
post-states are returned. -/
def merge (self other : CoverageSet) : CoverageSet × CoverageSet :=
  (self ∪ other, other)

/-- `report()`: prints the cardinality of the covered set. -/
def report (cov : CoverageSet) : ℕ :=
  cov.card

end AdderCoverage

/-- The two mismatch kinds raised by the assertion helpers in
`adder_asserts.py`: the sum mismatch and the carry-out mismatch, each
carrying the observed and the expected value. -/
inductive MismatchError where
  | sumMismatch (got expected : ℤ)
  | carryMismatch (got expected : ℤ)
deriving Repr

/-- `assert_adder_sum(dut, expected_sum)`: reads the DUT's `sum` signal
(passed here as `sum_val`) and raises on inequality. -/
def assert_adder_sum (sum_val expected_sum : ℤ) :
    Except MismatchError Unit :=
  if sum_val = expected_sum then .ok ()
  else .error (.sumMismatch sum_val expected_sum)

/-- `assert_adder_c_out(dut, expected_c_out)`: reads the DUT's `c_out`
signal (passed here as `c_out_val`) and raises on inequality. -/
def assert_adder_c_out (c_out_val expected_c_out : ℤ) :
    Except MismatchError Unit :=
  if c_out_val = expected_c_out then .ok ()
  else .error (.carryMismatch c_out_val expected_c_out)

/-- The checking step of `test_adder_basic`: `assert_adder_sum` followed by
`assert_adder_c_out`, where the first raised assertion aborts the
sequence. -/
def checkStep (sum_val c_out_val expected_sum expected_c_out : ℤ) :
    Except MismatchError Unit := do
  assert_adder_sum sum_val expected_sum
  assert_adder_c_out c_out_val expected_c_out

/-- C1: For every `N > 0`, operands below `2^N` and carry-in in `{0,1}`,
the reference model computes `sum = (a+b+c_in) mod 2^N` and
`c_out = (a+b+c_in) div 2^N`, the carry-out is 0 or 1, and at `N = 4` the
vector `(a=7, b=12, c_in=0)` yields `sum = 3`, `c_out = 1`. -/
theorem referenceModel_expect_mod_div (N a b c_in : ℕ) (hN : 0 < N)
    (ha : a ≤ 2 ^ N - 1) (hb : b ≤ 2 ^ N - 1) (hc : c_in ≤ 1) :
    ReferenceModel.expect N a b c_in = specExpect N a b c_in ∧
    (ReferenceModel.expect N a b c_in).2 ≤ 1 ∧
    ReferenceModel.expect 4 7 12 0 = (3, 1) := by
  have hpow : 0 < 2 ^ N := Nat.pos_pow_of_pos N (by norm_num)
  have ha' : a < 2 ^ N := by omega
  have hb' : b < 2 ^ N := by omega
  refine ⟨?_, ?_, by decide⟩
  · simp [ReferenceModel.expect, specExpect, Nat.one_shiftLeft,
      Nat.and_pow_two_sub_one_eq_mod, Nat.shiftRight_eq_div_pow]
  · have htot : a + b + c_in < 2 * 2 ^ N := by omega
    simp only [ReferenceModel.expect, Nat.shiftRight_eq_div_pow]
    have h2 : (a + b + c_in) / 2 ^ N < 2 :=
      (Nat.div_lt_iff_lt_mul hpow).mpr (by omega)
    omega

/-- Witness for C1 at `N = 4`, `(a, b, c_in) = (7, 12, 0)`. -/
theorem referenceModel_expect_mod_div_witness :
    ReferenceModel.expect 4 7 12 0 = specExpect 4 7 12 0 ∧
    (ReferenceModel.expect 4 7 12 0).2 ≤ 1 ∧
    ReferenceModel.expect 4 7 12 0 = (3, 1) :=
  referenceModel_expect_mod_div 4 7 12 0 (by decide) (by decide) (by decide)
    (by decide)

/-- Helper: when `0 ≤ max_val`, the generation loop always succeeds,
produces exactly `k` triples, and every field lies in its `randint` range. -/
theorem genLoop_ok (max_val : ℤ) (hmv : 0 ≤ max_val) :
    ∀ (k : ℕ) (s : RandState), ∃ vs s',
      AdderSequence.genLoop max_val k s = .ok (vs, s') ∧ vs.length = k ∧
      ∀ v ∈ vs, 0 ≤ v.1 ∧ v.1 ≤ max_val ∧ 0 ≤ v.2.1 ∧ v.2.1 ≤ max_val ∧
        (v.2.2 = 0 ∨ v.2.2 = 1)
  | 0, s => ⟨[], s, rfl, rfl, by simp⟩
  | k + 1, s => by
    have hlt : ¬ max_val < 0 := not_lt.mpr hmv
    obtain ⟨vs, s', hok, hlen, hbd⟩ :=
      genLoop_ok max_val hmv k ⟨s.stream, s.pos + 3⟩
    have hmod : ∀ p : ℕ, 0 ≤ (s.stream p : ℤ) % (max_val - 0 + 1) ∧
        (s.stream p : ℤ) % (max_val - 0 + 1) ≤ max_val := by
      intro p
      constructor
      · exact Int.emod_nonneg _ (by omega)
      · have := Int.emod_lt_of_pos (s.stream p : ℤ)
          (show (0 : ℤ) < max_val - 0 + 1 by omega)
        omega
    refine ⟨(0 + (s.stream s.pos : ℤ) % (max_val - 0 + 1),
             0 + (s.stream (s.pos + 1) : ℤ) % (max_val - 0 + 1),
             0 + (s.stream (s.pos + 2) : ℤ) % (1 - 0 + 1)) :: vs, s', ?_, ?_, ?_⟩
    · simp only [AdderSequence.genLoop, randint, if_neg hlt, if_neg
        (show ¬ (1 : ℤ) < 0 by decide), bind, Except.bind]
      have : s.pos + 1 + 1 + 1 = s.pos + 3 := by omega
      rw [this, hok]
    · simpa using hlen
    · intro v hv
      rcases List.mem_cons.mp hv with h | h
      · subst h
        refine ⟨by simpa using (hmod s.pos).1, by simpa using (hmod s.pos).2,
          by simpa using (hmod (s.pos + 1)).1,
          by simpa using (hmod (s.pos + 1)).2, ?_⟩
        have h0 : 0 ≤ (s.stream (s.pos + 2) : ℤ) % (1 - 0 + 1) :=
          Int.emod_nonneg _ (by omega)
        have h1 : (s.stream (s.pos + 2) : ℤ) % (1 - 0 + 1) < 2 :=
          Int.emod_lt_of_pos _ (by omega)
        simp only []
        omega
      · exact hbd v h

/-- C2: For every width `N > 0` and count `k ≥ 0`,
`AdderSequence(N).generate_vectors(k)` succeeds with exactly `k` vectors,
each with `a, b ∈ [0, 2^N − 1]` and `c_in ∈ {0, 1}`; with the count
omitted, exactly one vector is returned. -/
theorem adderSequence_generate_vectors_count_bounds (width : ℤ)
    (hw : 0 < width) (k : ℕ) (s : RandState) :
    (∃ vs s', AdderSequence.generate_vectors width k s = .ok (vs, s') ∧
      vs.length = k ∧ ∀ v ∈ vs,
        0 ≤ v.1 ∧ v.1 ≤ 2 ^ width.toNat - 1 ∧
        0 ≤ v.2.1 ∧ v.2.1 ≤ 2 ^ width.toNat - 1 ∧
        (v.2.2 = 0 ∨ v.2.2 = 1)) ∧
    (∃ vs s', AdderSequence.generate_vectors_default width s = .ok (vs, s') ∧
      vs.length = 1) := by
  have hpow : (0 : ℤ) < 2 ^ width.toNat := by positivity
  have hmv : (0 : ℤ) ≤ 1 * 2 ^ width.toNat - 1 := by omega
  have main : ∀ (k : ℕ) (s : RandState), ∃ vs s',
      AdderSequence.generate_vectors width k s = .ok (vs, s') ∧
      vs.length = k ∧ ∀ v ∈ vs,
        0 ≤ v.1 ∧ v.1 ≤ 2 ^ width.toNat - 1 ∧
        0 ≤ v.2.1 ∧ v.2.1 ≤ 2 ^ width.toNat - 1 ∧
        (v.2.2 = 0 ∨ v.2.2 = 1) := by
    intro k s
    obtain ⟨vs, s', hok, hlen, hbd⟩ :=
      genLoop_ok (1 * 2 ^ width.toNat - 1) hmv k s
    refine ⟨vs, s', ?_, hlen, ?_⟩
    · simpa only [AdderSequence.generate_vectors, pyShiftLeft,
        if_neg (not_lt.mpr (le_of_lt hw)), bind, Except.bind] using hok
    · intro v hv
      have h := hbd v hv
      exact ⟨h.1, by omega, h.2.2.1, by omega, h.2.2.2.2⟩
  refine ⟨main k s, ?_⟩
  obtain ⟨vs, s', hok, hlen, _⟩ := main 1 s
  exact ⟨vs, s', hok, hlen⟩

/-- Witness for C2 at `width = 4`, `k = 2`, the all-zero stream. -/
theorem adderSequence_generate_vectors_count_bounds_witness :
    (∃ vs s', AdderSequence.generate_vectors 4 2 ⟨fun _ => 0, 0⟩ =
        .ok (vs, s') ∧ vs.length = 2 ∧ ∀ v ∈ vs,
        0 ≤ v.1 ∧ v.1 ≤ 2 ^ (4 : ℤ).toNat - 1 ∧
        0 ≤ v.2.1 ∧ v.2.1 ≤ 2 ^ (4 : ℤ).toNat - 1 ∧
        (v.2.2 = 0 ∨ v.2.2 = 1)) ∧
    (∃ vs s', AdderSequence.generate_vectors_default 4 ⟨fun _ => 0, 0⟩ =
        .ok (vs, s') ∧ vs.length = 1) :=
  adderSequence_generate_vectors_count_bounds 4 (by decide) 2 ⟨fun _ => 0, 0⟩

/-- Counterexample to C6: at `width = 0 ≤ 0` and `k = 1`,
`generate_vectors` raises no error and returns one vector `(0, 0, 0)`
(with the all-zero random stream), contradicting the claim that every
width `≤ 0` fails fast with an error and no vectors. -/
theorem adderSequence_width_zero_yields_vector :
    (AdderSequence.generate_vectors 0 1 ⟨fun _ => 0, 0⟩).map Prod.fst =
      .ok [(0, 0, 0)] := by rfl

/-- C6, amended: `AdderSequence` performs no width validation and no
`StimulusError` exists: construction always succeeds; for `width = 0`,
`generate_vectors(k)` succeeds and returns `k` vectors, all of the form
`(0, 0, c)` with `c ∈ {0, 1}`; only for `width < 0` does the call fail,
and then with a `ValueError` raised by `1 << width` inside
`generate_vectors`, not before a vector is requested. -/
theorem adderSequence_no_width_validation :
    (∀ (width : ℤ) (k : ℕ) (s : RandState), width < 0 →
      AdderSequence.generate_vectors width k s = .error .valueError) ∧
    (∀ (k : ℕ) (s : RandState), ∃ vs s',
      AdderSequence.generate_vectors 0 k s = .ok (vs, s') ∧ vs.length = k ∧
      ∀ v ∈ vs, v.1 = 0 ∧ v.2.1 = 0 ∧ (v.2.2 = 0 ∨ v.2.2 = 1)) := by
  constructor
  · intro width k s hw
    simp only [AdderSequence.generate_vectors, pyShiftLeft, if_pos hw,
      bind, Except.bind]
  · intro k s
    obtain ⟨vs, s', hok, hlen, hbd⟩ :=
      genLoop_ok ((1 : ℤ) * 2 ^ (0 : ℤ).toNat - 1) (by decide) k s
    refine ⟨vs, s', ?_, hlen, ?_⟩
    · simpa only [AdderSequence.generate_vectors, pyShiftLeft,
        if_neg (show ¬ (0 : ℤ) < 0 by decide), bind, Except.bind] using hok
    · intro v hv
      have h := hbd v hv
      have h1 : (1 : ℤ) * 2 ^ (0 : ℤ).toNat - 1 = 0 := by decide
      rw [h1] at h
      exact ⟨by omega, by omega, h.2.2.2.2⟩

/-- Witness for the amended C6: a negative width fails with `ValueError`,
and width 0 succeeds with the requested number of vectors. -/
theorem adderSequence_no_width_validation_witness :
    AdderSequence.generate_vectors (-1) 1 ⟨fun _ => 0, 0⟩ =
      .error .valueError ∧
    (∃ vs s', AdderSequence.generate_vectors 0 2 ⟨fun _ => 0, 0⟩ =
      .ok (vs, s') ∧ vs.length = 2 ∧
      ∀ v ∈ vs, v.1 = 0 ∧ v.2.1 = 0 ∧ (v.2.2 = 0 ∨ v.2.2 = 1)) :=
  ⟨adderSequence_no_width_validation.1 (-1) 1 ⟨fun _ => 0, 0⟩ (by decide),
   adderSequence_no_width_validation.2 2 ⟨fun _ => 0, 0⟩⟩

/-- C9: `sample` is idempotent: re-sampling a vector leaves the covered
set (hence its cardinality) unchanged, and after sampling `(1,2,0)`,
`(1,2,0)`, `(3,4,1)` in sequence, `report()` emits cardinality 2, not 3. -/
theorem adderCoverage_sample_idempotent (cov : AdderCoverage.CoverageSet)
    (a b cin : ℤ) :
    AdderCoverage.sample (AdderCoverage.sample cov a b cin) a b cin =
      AdderCoverage.sample cov a b cin ∧
    (AdderCoverage.sample (AdderCoverage.sample cov a b cin) a b cin).card =
      (AdderCoverage.sample cov a b cin).card ∧
    AdderCoverage.report
      (AdderCoverage.sample (AdderCoverage.sample
        (AdderCoverage.sample ∅ 1 2 0) 1 2 0) 3 4 1) = 2 := by
  refine ⟨Finset.insert_idem _ _, ?_, ?_⟩
  · rw [AdderCoverage.sample, AdderCoverage.sample, Finset.insert_idem]
  · decide

/-- C10: `sample` enforces no bounds on its inputs: for all integers
`a`, `b`, `cin` — including out-of-range operands and carry bits — the
vector is a member of the covered set afterwards and the cardinality grows
by at most 1. -/
theorem adderCoverage_sample_unbounded (cov : AdderCoverage.CoverageSet)
    (a b cin : ℤ) :
    [JScalar.num a, JScalar.num b, JScalar.num cin] ∈
      AdderCoverage.sample cov a b cin ∧
    (AdderCoverage.sample cov a b cin).card ≤ cov.card + 1 :=
  ⟨Finset.mem_insert_self _ _, Finset.card_insert_le _ _⟩

/-- C4: `merge` makes the receiver the union of both covered sets,
leaves the argument's set unchanged, and is commutative and associative at
the level of the resulting set. -/
theorem adderCoverage_merge_union_comm_assoc
    (A B C : AdderCoverage.CoverageSet) :
    (AdderCoverage.merge A B).1 = A ∪ B ∧
    (AdderCoverage.merge A B).2 = B ∧
    (AdderCoverage.merge A B).1 = (AdderCoverage.merge B A).1 ∧
    (AdderCoverage.merge (AdderCoverage.merge A B).1 C).1 =
      (AdderCoverage.merge A (AdderCoverage.merge B C).1).1 :=
  ⟨rfl, rfl, Finset.union_comm A B, Finset.union_assoc A B C⟩

/-- Helper: the components of a dumped tuple parse back to themselves. -/
theorem scalarsOf_map_toJVal (t : List JScalar) :
    scalarsOf (t.map JScalar.toJVal) = .ok t := by
  induction t with
  | nil => rfl
  | cons c cs ih =>
    cases c <;>
      simp [scalarsOf, JScalar.toJVal, jvalComponent, ih, bind, Except.bind]

/-- Helper: a dumped enumeration of tuples parses back to itself. -/
theorem tuplesOf_save (l : List (List JScalar)) :
    tuplesOf (l.map fun t => JVal.arr (t.map JScalar.toJVal)) = .ok l := by
  induction l with
  | nil => rfl
  | cons t ts ih =>
    simp [tuplesOf, hashableTuple, pyIter, scalarsOf_map_toJVal t, ih,
      bind, Except.bind]

/-- C3: Round-trip: saving a coverage set — in any enumeration order of
its elements — and loading the file back restores exactly that set,
whatever the loading tracker held before, with no error. -/
theorem adderCoverage_save_load_roundtrip
    (cov prior : AdderCoverage.CoverageSet) (l : List (List JScalar))
    (hl : l.toFinset = cov) :
    AdderCoverage.load prior (some (AdderCoverage.save l)) = (cov, none) := by
  have hparse :
      AdderCoverage.loadParse (some (AdderCoverage.save l)) = .ok cov := by
    simp [AdderCoverage.loadParse, AdderCoverage.save, pyIter,
      tuplesOf_save l, hl, bind, Except.bind]
  simp [AdderCoverage.load, hparse]

/-- Witness for C3 on the two-element set `{(1,2,0), (3,4,1)}` enumerated
in reversed order. -/
theorem adderCoverage_save_load_roundtrip_witness :
    AdderCoverage.load ∅ (some (AdderCoverage.save
      [[JScalar.num 3, JScalar.num 4, JScalar.num 1],
       [JScalar.num 1, JScalar.num 2, JScalar.num 0]])) =
      ({[JScalar.num 1, JScalar.num 2, JScalar.num 0],
        [JScalar.num 3, JScalar.num 4, JScalar.num 1]}, none) :=
  adderCoverage_save_load_roundtrip _ ∅ _ (by decide)

/-- C8: A failed `load` never corrupts the in-memory covered set:
whenever the call reports an error — missing file or any raised parse
error — the covered set after the call equals the set before it. -/
theorem adderCoverage_load_error_preserves (cov : AdderCoverage.CoverageSet)
    (file : Option JVal) (e : PyError)
    (h : (AdderCoverage.load cov file).2 = some e) :
    (AdderCoverage.load cov file).1 = cov := by
  unfold AdderCoverage.load at h ⊢
  cases hp : AdderCoverage.loadParse file with
  | ok v => rw [hp] at h; simp at h
  | error e2 => rfl

/-- Witness for C8: loading a non-iterable JSON number fails with a
`TypeError` and leaves the prior one-element set intact. -/
theorem adderCoverage_load_error_preserves_witness :
    (AdderCoverage.load {[JScalar.num 1]} (some (JVal.num 5))).1 =
      {[JScalar.num 1]} :=
  adderCoverage_load_error_preserves {[JScalar.num 1]} (some (JVal.num 5))
    PyError.typeError rfl

/-- Counterexample to C5: a file whose only element is the two-element
array `[1, 2]` — not a 3-tuple, no carry bit — is accepted by `load`, which
silently stores the 2-tuple `(1, 2)` instead of failing with a format
error. -/
theorem adderCoverage_load_accepts_malformed :
    AdderCoverage.load ∅
      (some (JVal.arr [JVal.arr [JVal.num 1, JVal.num 2]])) =
      ({[JScalar.num 1, JScalar.num 2]}, none) := rfl

/-- C5, amended: `load` performs no format validation at all: any file
holding an array of integer arrays is accepted whatever the arity and
values of its elements — each element is coerced to a tuple and inserted
as-is, with no check that it is a 3-tuple or that the carry bit is 0 or
1. -/
theorem adderCoverage_load_no_validation (prior : AdderCoverage.CoverageSet)
    (xss : List (List ℤ)) :
    AdderCoverage.load prior
      (some (JVal.arr (xss.map fun xs => JVal.arr (xs.map JVal.num)))) =
      ((xss.map fun xs => xs.map JScalar.num).toFinset, none) := by
  have hcontent : JVal.arr (xss.map fun xs => JVal.arr (xs.map JVal.num)) =
      JVal.arr ((xss.map fun xs => xs.map JScalar.num).map fun t =>
        JVal.arr (t.map JScalar.toJVal)) := by
    congr 1
    rw [List.map_map]
    exact List.map_congr_left fun xs _ => by
      simp [Function.comp, List.map_map, JScalar.toJVal]
  rw [hcontent]
  have hparse : AdderCoverage.loadParse (some (JVal.arr
      ((xss.map fun xs => xs.map JScalar.num).map fun t =>
        JVal.arr (t.map JScalar.toJVal)))) =
      .ok (xss.map fun xs => xs.map JScalar.num).toFinset := by
    simp only [AdderCoverage.loadParse, pyIter, bind, Except.bind,
      tuplesOf_save (xss.map fun xs => xs.map JScalar.num)]
  unfold AdderCoverage.load
  rw [hparse]

/-- Counterexample to C7: with observed `(sum, c_out) = (2, 0)` and
expected `(3, 1)`, both comparisons mismatch, yet the checking step reports
only the `SumMismatch` — the carry comparison is never evaluated, so both
mismatches are not reported for the same vector. -/
theorem checkStep_reports_only_first :
    checkStep 2 0 3 1 = .error (.sumMismatch 2 3) ∧
    checkStep 2 0 3 1 ≠ .error (.carryMismatch 0 1) := by
  refine ⟨rfl, ?_⟩
  intro h
  rw [show checkStep 2 0 3 1 =
    Except.error (MismatchError.sumMismatch 2 3) from rfl] at h
  exact MismatchError.noConfusion (Except.error.inj h)

/-- C7, amended: The checking step evaluates the two comparisons in
sequence and raises on the first failure: when the sums differ it reports
the `SumMismatch` and the carry comparison is never reported; a
`CarryMismatch` is reported exactly when the sums agree and the carries
differ; when both agree the check succeeds. At most one mismatch is
reported per vector. -/
theorem checkStep_first_mismatch (os oc es ec : ℤ) :
    (os ≠ es → checkStep os oc es ec = .error (.sumMismatch os es)) ∧
    (os = es → oc ≠ ec →
      checkStep os oc es ec = .error (.carryMismatch oc ec)) ∧
    (os = es → oc = ec → checkStep os oc es ec = .ok ()) := by
  refine ⟨?_, ?_, ?_⟩
  · intro h
    simp [checkStep, assert_adder_sum, assert_adder_c_out, h,
      bind, Except.bind]
  · intro h1 h2
    simp [checkStep, assert_adder_sum, assert_adder_c_out, h1, h2,
      bind, Except.bind]
  · intro h1 h2
    simp [checkStep, assert_adder_sum, assert_adder_c_out, h1, h2,
      bind, Except.bind]

/-- Witness for the amended C7 at the spec's `N = 4` scenario values:
expected `(3, 1)` against observed `(2, 0)`, `(3, 0)` and `(3, 1)`. -/
theorem checkStep_first_mismatch_witness :
    checkStep 2 0 3 1 = .error (.sumMismatch 2 3) ∧
    checkStep 3 0 3 1 = .error (.carryMismatch 0 1) ∧
    checkStep 3 1 3 1 = .ok () :=
  ⟨(checkStep_first_mismatch 2 0 3 1).1 (by decide),
   (checkStep_first_mismatch 3 0 3 1).2.1 rfl (by decide),
   (checkStep_first_mismatch 3 1 3 1).2.2 rfl rfl⟩
